import Mathlib

/-!
Shallow embedding of the two executable cores of this repository:

* `Kits19.save_kits19_frames` — the KiTS19 data-preparation function from the
  110-ct-scan notebook.  A NIfTI volume is modelled as a (possibly ragged)
  list of 2D slices with rational entries standing for the float64 values
  returned by `get_fdata()`.  Filesystem effects (`mkdir`, `cv2.imwrite`) are
  modelled as an event trace; a failed `assert` aborts the run, returning the
  trace of effects performed so far together with an error.
* `MT215.translate` — the prefix of the `translate` function from the
  215-machine-translation notebook: `strip`, the non-emptiness assertion,
  tokenization, BOS/EOS wrapping, padding and the length assertion.  The
  external tokenizer is a function parameter and the inference call is an
  abstract trace event.
-/

namespace Kits19

/-- A 2D slice (`numpy` frame) of float64 data, entries modelled as rationals. -/
abbrev Frame2D := List (List ℚ)

/-- A 3D volume as returned by `nib.load(...).get_fdata()`. -/
abbrev Volume := List Frame2D

/-- `array.shape` for a 3D array: `(D, H, W)`.  For the rectangular arrays
numpy produces, the head-based extraction of `H` and `W` agrees with every
row; ragged lists only arise as modelling artefacts. -/
def volShape (v : Volume) : ℕ × ℕ × ℕ :=
  (v.length, (v.headD []).length, ((v.headD []).headD []).length)

/-- Elementwise effect of `mask_data[mask_data > 0] = 1`: values above zero
become `1`, all others are left unchanged. -/
def binarizeVal (v : ℚ) : ℚ := if 0 < v then 1 else v

/-- `mask_data[mask_data > 0] = 1` over the whole volume. -/
def binarizeVol (m : Volume) : Volume :=
  m.map (fun sl => sl.map (fun row => row.map binarizeVal))

/-- Elementwise effect of the two masked assignments
`image_data[image_data < window_start] = window_start` followed by
`image_data[image_data > window_end] = window_end`. -/
def applyWindowVal (ws we x : ℚ) : ℚ :=
  let y := if x < ws then ws else x
  if we < y then we else y

/-- The two masked assignments over the whole volume. -/
def windowVol (ws we : ℚ) (v : Volume) : Volume :=
  v.map (fun sl => sl.map (fun row => row.map (applyWindowVal ws we)))

/-- `if window_level is not None: ...` — apply the window only when given. -/
def windowVolOpt (wl : Option (ℚ × ℚ)) (v : Volume) : Volume :=
  match wl with
  | none => v
  | some (ws, we) => windowVol ws we v

/-- Elementwise form of `windowVolOpt`: identity when no window is given. -/
def applyWindowValOpt (wl : Option (ℚ × ℚ)) (x : ℚ) : ℚ :=
  match wl with
  | none => x
  | some (ws, we) => applyWindowVal ws we x

/-- Written from the spec's words, for comparison with `applyWindowVal`:
`clamp(x, low, high)` is `x` if `low ≤ x ≤ high`, `low` if `x < low`, and
`high` if `x > high`. -/
def clampSpec (low high x : ℚ) : ℚ :=
  if x < low then low else if high < x then high else x

/-- `frame.min()`: minimum over all entries of a 2D array (0 on the empty
array, where numpy would raise). -/
def frameMin (sl : Frame2D) : ℚ :=
  match sl.flatten with
  | [] => 0
  | x :: xs => xs.foldl min x

/-- `frame.max()`: maximum over all entries of a 2D array. -/
def frameMax (sl : Frame2D) : ℚ :=
  match sl.flatten with
  | [] => 0
  | x :: xs => xs.foldl max x

/-- Truncation toward zero, the C conversion used by `astype` for values of
integral magnitude within range. -/
def floatTrunc (q : ℚ) : ℤ := if q < 0 then ⌈q⌉ else ⌊q⌋

/-- `astype(np.uint8)`: truncate toward zero and reduce modulo `2^8`. -/
def castU8 (q : ℚ) : ℕ := (floatTrunc q % 256).toNat

/-- The per-slice body of the write loop:
`image_frame = (image_frame - image_frame.min()) / (image_frame.max() - image_frame.min())`,
then `image_frame = image_frame * 255`, then
`image_frame = image_frame.astype(np.uint8)`. -/
def processSlice (sl : Frame2D) : List (List ℕ) :=
  let m := frameMin sl
  let M := frameMax sl
  let scaled := sl.map (fun row => row.map (fun v => (v - m) / (M - m)))
  let scaled255 := scaled.map (fun row => row.map (fun v => v * 255))
  scaled255.map (fun row => row.map castU8)

/-- Filesystem effects of `save_kits19_frames`, in program order. -/
inductive Event where
  | mkdirEvt : String → Event
  | writeImage : ℕ → List (List ℕ) → Event
  | writeMask : ℕ → Frame2D → Event
deriving DecidableEq, Repr

/-- The write loop
`for i, (mask_frame, image_frame) in enumerate(zip(mask_data, image_data))`:
per index `i`, `cv2.imwrite` of the processed image frame then of the raw
mask frame.  The counter argument carries `i`. -/
def writeEvents : ℕ → List (Frame2D × Frame2D) → List Event
  | _, [] => []
  | i, (mf, imf) :: rest =>
    Event.writeImage i (processSlice imf) :: Event.writeMask i mf ::
      writeEvents (i + 1) rest

/-- `save_kits19_frames` on loaded data.  `mask_data` and `image_data` are the
arrays returned by `get_fdata()`; path-existence asserts and loading are not
modelled (the data is the input).  The trace records, in order: the
`root_dir` mkdir, then — only if the shape assert passes — the case and frame
directory mkdirs and the per-slice writes.  A failed assert returns the trace
accumulated so far and an error. -/
def save_kits19_frames (mask_data image_data : Volume)
    (window_level : Option (ℚ × ℚ)) (make_binary : Bool) :
    List Event × Except String Unit :=
  let preEvents := [Event.mkdirEvt "root_dir"]
  if volShape mask_data = volShape image_data then
    let maskData2 := if make_binary then binarizeVol mask_data else mask_data
    let imageData2 := windowVolOpt window_level image_data
    let dirEvents := [Event.mkdirEvt "case_dir", Event.mkdirEvt "imaging_frames",
      Event.mkdirEvt "segmentation_frames"]
    (preEvents ++ dirEvents ++ writeEvents 0 (maskData2.zip imageData2),
      Except.ok ())
  else
    (preEvents, Except.error "Mask and image shape are not equal")

/-- The image frame written for slice index `i`, read off the trace. -/
def imageFrameAt : List Event → ℕ → Option (List (List ℕ))
  | [], _ => none
  | Event.writeImage j f :: es, i => if j = i then some f else imageFrameAt es i
  | _ :: es, i => imageFrameAt es i

/-- The mask frame written for slice index `i`, read off the trace. -/
def maskFrameAt : List Event → ℕ → Option Frame2D
  | [], _ => none
  | Event.writeMask j f :: es, i => if j = i then some f else maskFrameAt es i
  | _ :: es, i => maskFrameAt es i

/-- Slice indices of the image (`.jpg`) writes, in trace order. -/
def imageWriteIndices : List Event → List ℕ
  | [] => []
  | Event.writeImage j _ :: es => j :: imageWriteIndices es
  | _ :: es => imageWriteIndices es

/-- Slice indices of the mask (`.png`) writes, in trace order. -/
def maskWriteIndices : List Event → List ℕ
  | [] => []
  | Event.writeMask j _ :: es => j :: maskWriteIndices es
  | _ :: es => maskWriteIndices es

end Kits19

namespace MT215

/-- Python's `str.isspace` on the ASCII whitespace characters that
`str.strip()` removes: space, tab, newline, carriage return, vertical tab,
form feed. -/
def pyIsSpace (c : Char) : Bool :=
  c == ' ' || c == '\t' || c == '\n' || c == '\r' ||
    c == Char.ofNat 11 || c == Char.ofNat 12

/-- `sentence.strip()`: drop leading and trailing whitespace, a string being
a list of characters. -/
def pyStrip (s : List Char) : List Char :=
  ((s.dropWhile pyIsSpace).reverse.dropWhile pyIsSpace).reverse

/-- Observable steps of `translate` past the pure preprocessing: the call to
`src_tokenizer.encode` and the call to `infer_request.infer`. -/
inductive TransEvent where
  | tokenizeCall : List Char → TransEvent
  | inferCall : TransEvent
deriving DecidableEq, Repr

/-- The `translate` function of the machine-translation demo, up to the
inference call: strip the input, `assert len(sentence) > 0`, tokenize, wrap
in `<s>`/`</s>`, pad with `<pad>` up to `max_tokens`,
`assert len(tokens) == max_tokens`.  The external SentencePiece tokenizer is
the parameter `tok`; `bos`, `eos`, `pad` are the ids of `<s>`, `</s>`,
`<pad>`; decoding of the inference output is beyond the trace.  A failed
assert returns the events so far and an error. -/
def translate (tok : List Char → List ℕ) (bos eos pad maxTokens : ℕ)
    (sentence : List Char) : List TransEvent × Except String Unit :=
  let stripped := pyStrip sentence
  if 0 < stripped.length then
    let tokens := tok stripped
    let tokens2 := [bos] ++ tokens ++ [eos]
    let padLength : ℤ := (maxTokens : ℤ) - tokens2.length
    let tokens3 :=
      if 0 < padLength then tokens2 ++ List.replicate padLength.toNat pad
      else tokens2
    if tokens3.length = maxTokens then
      ([TransEvent.tokenizeCall stripped, TransEvent.inferCall], Except.ok ())
    else
      ([TransEvent.tokenizeCall stripped],
        Except.error "input sentence is too long")
  else
    ([], Except.error "AssertionError")

end MT215

namespace Kits19

theorem imageFrameAt_writeEvents :
    ∀ (ps : List (Frame2D × Frame2D)) (k i : ℕ),
      imageFrameAt (writeEvents k ps) (k + i) =
        (ps[i]?).map (fun p => processSlice p.2) := by
  intro ps
  induction ps with
  | nil => intro k i; simp [writeEvents, imageFrameAt]
  | cons p rest ih =>
    intro k i
    obtain ⟨mf, imf⟩ := p
    cases i with
    | zero => simp [writeEvents, imageFrameAt]
    | succ j =>
      have hne : ¬ k = k + (j + 1) := by omega
      simp only [writeEvents, imageFrameAt, if_neg hne, List.getElem?_cons_succ]
      rw [show k + (j + 1) = (k + 1) + j from by omega]
      exact ih (k + 1) j

theorem maskFrameAt_writeEvents :
    ∀ (ps : List (Frame2D × Frame2D)) (k i : ℕ),
      maskFrameAt (writeEvents k ps) (k + i) = (ps[i]?).map Prod.fst := by
  intro ps
  induction ps with
  | nil => intro k i; simp [writeEvents, maskFrameAt]
  | cons p rest ih =>
    intro k i
    obtain ⟨mf, imf⟩ := p
    cases i with
    | zero => simp [writeEvents, maskFrameAt]
    | succ j =>
      have hne : ¬ k = k + (j + 1) := by omega
      simp only [writeEvents, maskFrameAt, if_neg hne, List.getElem?_cons_succ]
      rw [show k + (j + 1) = (k + 1) + j from by omega]
      exact ih (k + 1) j

theorem zip_getElem?_snd {α β : Type} :
    ∀ (l : List α) (l' : List β) (i : ℕ), l.length = l'.length →
      ((l.zip l')[i]?).map Prod.snd = l'[i]? := by
  intro l
  induction l with
  | nil => intro l' i h; cases l' with
    | nil => simp
    | cons b bs => simp at h
  | cons a as ih =>
    intro l' i h
    cases l' with
    | nil => simp at h
    | cons b bs =>
      cases i with
      | zero => simp
      | succ j =>
        simp only [List.zip_cons_cons, List.getElem?_cons_succ]
        exact ih bs j (by simpa using h)

theorem zip_getElem?_fst {α β : Type} :
    ∀ (l : List α) (l' : List β) (i : ℕ), l.length = l'.length →
      ((l.zip l')[i]?).map Prod.fst = l[i]? := by
  intro l
  induction l with
  | nil => intro l' i h; cases l' with
    | nil => simp
    | cons b bs => simp at h
  | cons a as ih =>
    intro l' i h
    cases l' with
    | nil => simp at h
    | cons b bs =>
      cases i with
      | zero => simp
      | succ j =>
        simp only [List.zip_cons_cons, List.getElem?_cons_succ]
        exact ih bs j (by simpa using h)

theorem length_binarizeVol (m : Volume) : (binarizeVol m).length = m.length := by
  simp [binarizeVol]

theorem length_windowVolOpt (wl : Option (ℚ × ℚ)) (v : Volume) :
    (windowVolOpt wl v).length = v.length := by
  cases wl with
  | none => rfl
  | some p => obtain ⟨ws, we⟩ := p; simp [windowVolOpt, windowVol]

theorem volShape_fst (h : volShape m = volShape v) : m.length = v.length := by
  have := congrArg Prod.fst h
  simpa [volShape] using this

theorem save_trace_ok (mask_data image_data : Volume)
    (wl : Option (ℚ × ℚ)) (mb : Bool)
    (h : volShape mask_data = volShape image_data) :
    (save_kits19_frames mask_data image_data wl mb).1 =
      [Event.mkdirEvt "root_dir", Event.mkdirEvt "case_dir",
        Event.mkdirEvt "imaging_frames", Event.mkdirEvt "segmentation_frames"] ++
        writeEvents 0
          ((if mb then binarizeVol mask_data else mask_data).zip
            (windowVolOpt wl image_data)) := by
  simp [save_kits19_frames, h]

theorem imageFrameAt_save (mask_data image_data : Volume)
    (wl : Option (ℚ × ℚ)) (mb : Bool) (i : ℕ)
    (h : volShape mask_data = volShape image_data) :
    imageFrameAt (save_kits19_frames mask_data image_data wl mb).1 i =
      ((windowVolOpt wl image_data)[i]?).map processSlice := by
  rw [save_trace_ok mask_data image_data wl mb h]
  have hlen : (if mb then binarizeVol mask_data else mask_data).length =
      (windowVolOpt wl image_data).length := by
    cases mb <;>
      simp [length_binarizeVol, length_windowVolOpt, volShape_fst h]
  have hmain := imageFrameAt_writeEvents
    ((if mb then binarizeVol mask_data else mask_data).zip
      (windowVolOpt wl image_data)) 0 i
  simp only [Nat.zero_add] at hmain
  have hsnd := zip_getElem?_snd
    (if mb then binarizeVol mask_data else mask_data)
    (windowVolOpt wl image_data) i hlen
  simp only [imageFrameAt, List.cons_append, List.nil_append, List.append_eq]
  rw [hmain, ← hsnd, Option.map_map]
  rfl

theorem maskFrameAt_save (mask_data image_data : Volume)
    (wl : Option (ℚ × ℚ)) (mb : Bool) (i : ℕ)
    (h : volShape mask_data = volShape image_data) :
    maskFrameAt (save_kits19_frames mask_data image_data wl mb).1 i =
      (if mb then binarizeVol mask_data else mask_data)[i]? := by
  rw [save_trace_ok mask_data image_data wl mb h]
  have hlen : (if mb then binarizeVol mask_data else mask_data).length =
      (windowVolOpt wl image_data).length := by
    cases mb <;>
      simp [length_binarizeVol, length_windowVolOpt, volShape_fst h]
  have hmain := maskFrameAt_writeEvents
    ((if mb then binarizeVol mask_data else mask_data).zip
      (windowVolOpt wl image_data)) 0 i
  simp only [Nat.zero_add] at hmain
  have hfst := zip_getElem?_fst
    (if mb then binarizeVol mask_data else mask_data)
    (windowVolOpt wl image_data) i hlen
  simp only [maskFrameAt, List.cons_append, List.nil_append, List.append_eq]
  rw [hmain, hfst]

theorem processSlice_eq_map (sl : Frame2D) :
    processSlice sl = sl.map (fun row => row.map (fun v =>
      castU8 ((v - frameMin sl) / (frameMax sl - frameMin sl) * 255))) := by
  simp [processSlice, List.map_map, Function.comp_def]

theorem castU8_le_255 (q : ℚ) : castU8 q ≤ 255 := by
  have h1 : floatTrunc q % 256 < 256 := Int.emod_lt_of_pos _ (by norm_num)
  have h2 : 0 ≤ floatTrunc q % 256 := Int.emod_nonneg _ (by norm_num)
  unfold castU8
  omega

theorem foldl_min_const (c : ℚ) :
    ∀ (xs : List ℚ) (x : ℚ), x = c → (∀ y ∈ xs, y = c) → xs.foldl min x = c := by
  intro xs
  induction xs with
  | nil => intro x hx _; simpa using hx
  | cons y ys ih =>
    intro x hx hall
    have hy : y = c := hall y (by simp)
    have : min x y = c := by rw [hx, hy, min_self]
    exact ih (min x y) this (fun z hz => hall z (by simp [hz]))

theorem foldl_max_const (c : ℚ) :
    ∀ (xs : List ℚ) (x : ℚ), x = c → (∀ y ∈ xs, y = c) → xs.foldl max x = c := by
  intro xs
  induction xs with
  | nil => intro x hx _; simpa using hx
  | cons y ys ih =>
    intro x hx hall
    have hy : y = c := hall y (by simp)
    have : max x y = c := by rw [hx, hy, max_self]
    exact ih (max x y) this (fun z hz => hall z (by simp [hz]))

theorem frameMin_const (sl : Frame2D) (c : ℚ) (hne : sl.flatten ≠ [])
    (hc : ∀ v ∈ sl.flatten, v = c) : frameMin sl = c := by
  obtain ⟨x, xs, hx⟩ := List.exists_cons_of_ne_nil hne
  unfold frameMin
  rw [hx]
  exact foldl_min_const c xs x (hc x (by rw [hx]; simp))
    (fun y hy => hc y (by rw [hx]; simp [hy]))

theorem frameMax_const (sl : Frame2D) (c : ℚ) (hne : sl.flatten ≠ [])
    (hc : ∀ v ∈ sl.flatten, v = c) : frameMax sl = c := by
  obtain ⟨x, xs, hx⟩ := List.exists_cons_of_ne_nil hne
  unfold frameMax
  rw [hx]
  exact foldl_max_const c xs x (hc x (by rw [hx]; simp))
    (fun y hy => hc y (by rw [hx]; simp [hy]))

theorem applyWindowVal_eq_clamp (low high x : ℚ) (h : low ≤ high) :
    applyWindowVal low high x = clampSpec low high x := by
  simp only [applyWindowVal, clampSpec]
  split_ifs <;> linarith

theorem windowVolOpt_eq_map (wl : Option (ℚ × ℚ)) (v : Volume) :
    windowVolOpt wl v = v.map (fun sl => sl.map (fun row =>
      row.map (applyWindowValOpt wl))) := by
  cases wl with
  | none =>
    simp only [windowVolOpt]
    have h : applyWindowValOpt none = fun x : ℚ => x := funext (fun _ => rfl)
    rw [h]
    simp [List.map_id']
  | some p => obtain ⟨ws, we⟩ := p; rfl

theorem windowVolOpt_getElem? (wl : Option (ℚ × ℚ)) (v : Volume) (i : ℕ) :
    (windowVolOpt wl v)[i]? = (v[i]?).map (fun sl => sl.map (fun row =>
      row.map (applyWindowValOpt wl))) := by
  rw [windowVolOpt_eq_map, List.getElem?_map]

theorem binarizeVol_getElem? (m : Volume) (i : ℕ) :
    (binarizeVol m)[i]? = (m[i]?).map (fun sl => sl.map (fun row =>
      row.map binarizeVal)) := by
  rw [binarizeVol, List.getElem?_map]

theorem imageWriteIndices_writeEvents :
    ∀ (ps : List (Frame2D × Frame2D)) (k : ℕ),
      imageWriteIndices (writeEvents k ps) = List.range' k ps.length := by
  intro ps
  induction ps with
  | nil => intro k; rfl
  | cons p rest ih =>
    intro k
    obtain ⟨mf, imf⟩ := p
    simp only [writeEvents, imageWriteIndices, List.length_cons, List.range']
    rw [ih (k + 1)]

theorem maskWriteIndices_writeEvents :
    ∀ (ps : List (Frame2D × Frame2D)) (k : ℕ),
      maskWriteIndices (writeEvents k ps) = List.range' k ps.length := by
  intro ps
  induction ps with
  | nil => intro k; rfl
  | cons p rest ih =>
    intro k
    obtain ⟨mf, imf⟩ := p
    simp only [writeEvents, maskWriteIndices, List.length_cons, List.range']
    rw [ih (k + 1)]

theorem writeImage_mem_writeEvents {i : ℕ} {f : List (List ℕ)} :
    ∀ (ps : List (Frame2D × Frame2D)) (k : ℕ),
      Event.writeImage i f ∈ writeEvents k ps →
        ∃ pr ∈ ps, f = processSlice pr.2 := by
  intro ps
  induction ps with
  | nil => intro k h; simp [writeEvents] at h
  | cons p rest ih =>
    intro k h
    obtain ⟨mf, imf⟩ := p
    simp only [writeEvents, List.mem_cons] at h
    rcases h with h | h | h
    · exact ⟨(mf, imf), by simp, (Event.writeImage.injEq _ _ _ _ |>.mp h).2⟩
    · exact absurd h (by simp)
    · obtain ⟨pr, hpr, hf⟩ := ih (k + 1) h
      exact ⟨pr, by simp [hpr], hf⟩

end Kits19

namespace MT215

theorem pyStrip_all_space {s : List Char} (h : ∀ c ∈ s, pyIsSpace c) :
    pyStrip s = [] := by
  unfold pyStrip
  have h1 : s.dropWhile pyIsSpace = [] := List.dropWhile_eq_nil_iff.mpr h
  rw [h1]
  rfl

end MT215

namespace Kits19

/-- Claim C1: when the image volume and the mask volume have different
shapes, `save_kits19_frames` fails the shape assertion — its result is the
assertion error — and the effect trace up to that point contains no image
(`.jpg`) write and no mask (`.png`) write: no output frame exists for that
case. -/
theorem claim_C1_shape_mismatch_aborts_before_writes
    (mask_data image_data : Volume) (wl : Option (ℚ × ℚ)) (mb : Bool)
    (h : volShape mask_data ≠ volShape image_data) :
    (save_kits19_frames mask_data image_data wl mb).2 =
        Except.error "Mask and image shape are not equal" ∧
      imageWriteIndices (save_kits19_frames mask_data image_data wl mb).1 = [] ∧
      maskWriteIndices (save_kits19_frames mask_data image_data wl mb).1 = [] := by
  unfold save_kits19_frames
  rw [if_neg h]
  exact ⟨rfl, rfl, rfl⟩

theorem claim_C1_witness :
    volShape [[[(0 : ℚ)]]] ≠ volShape [[[(0 : ℚ), 1]]] ∧
      ((save_kits19_frames [[[(0 : ℚ)]]] [[[(0 : ℚ), 1]]] none true).2 =
          Except.error "Mask and image shape are not equal" ∧
        imageWriteIndices
          (save_kits19_frames [[[(0 : ℚ)]]] [[[(0 : ℚ), 1]]] none true).1 = [] ∧
        maskWriteIndices
          (save_kits19_frames [[[(0 : ℚ)]]] [[[(0 : ℚ), 1]]] none true).1 = []) :=
  ⟨by decide,
    claim_C1_shape_mismatch_aborts_before_writes _ _ none true (by decide)⟩

/-- Claim C2, counterexample: the claim predicts that with `make_binary` set
every label value `v` is stored as `1` if `v > 0` and `0` otherwise.  But
`mask_data[mask_data > 0] = 1` leaves non-positive values unchanged: running
the conversion on a mask whose single label value is `-1` stores `-1`, while
the claim's formula yields `0 ≠ -1`. -/
theorem claim_C2_counterexample :
    maskFrameAt (save_kits19_frames [[[(-1 : ℚ)]]] [[[(5 : ℚ)]]] none true).1 0 =
        some [[(-1 : ℚ)]] ∧
      (if (0 : ℚ) < (-1 : ℚ) then (1 : ℚ) else 0) ≠ (-1 : ℚ) := by
  constructor
  · decide
  · norm_num

/-- Claim C2, amended: with `make_binary` set, every *nonnegative* label
value `v` of a mask slice is stored as `1` if `v > 0` and `0` otherwise
(negative label values — which do not occur as class indices — are left
unchanged by the masked assignment). -/
theorem claim_C2_binarize_nonneg
    (mask_data image_data : Volume) (wl : Option (ℚ × ℚ)) (i : ℕ) (sl : Frame2D)
    (h : volShape mask_data = volShape image_data)
    (hsl : mask_data[i]? = some sl)
    (hpos : ∀ row ∈ sl, ∀ v ∈ row, 0 ≤ v) :
    maskFrameAt (save_kits19_frames mask_data image_data wl true).1 i =
      some (sl.map (fun row => row.map (fun v =>
        if 0 < v then (1 : ℚ) else 0))) := by
  rw [maskFrameAt_save mask_data image_data wl true i h]
  simp only [if_true]
  rw [binarizeVol_getElem?, hsl]
  simp only [Option.map_some']
  congr 1
  apply List.map_congr_left
  intro row hrow
  apply List.map_congr_left
  intro v hv
  have h0 : 0 ≤ v := hpos row hrow v hv
  unfold binarizeVal
  split_ifs with hlt
  · rfl
  · exact le_antisymm (not_lt.mp hlt) h0

theorem claim_C2_witness :
    volShape [[[(0 : ℚ), 2]]] = volShape [[[(3 : ℚ), 4]]] ∧
      ([[[(0 : ℚ), 2]]] : Volume)[0]? = some [[(0 : ℚ), 2]] ∧
      (∀ row ∈ [[(0 : ℚ), 2]], ∀ v ∈ row, 0 ≤ v) ∧
      maskFrameAt
          (save_kits19_frames [[[(0 : ℚ), 2]]] [[[(3 : ℚ), 4]]] none true).1 0 =
        some ([[(0 : ℚ), 2]].map (fun row => row.map (fun v =>
          if 0 < v then (1 : ℚ) else 0))) :=
  ⟨by decide, by decide, by decide,
    claim_C2_binarize_nonneg _ _ none 0 _ (by decide) (by decide) (by decide)⟩

/-- Claim C3: for each slice index `i` of the image volume (as it stands
when sliced, i.e. after the optional windowing), the written frame maps
every pixel `v` of that slice to `(v - m) / (M - m) * 255` with `m`, `M`
the slice's own minimum and maximum, cast to 8-bit. -/
theorem claim_C3_per_slice_minmax_rescale
    (mask_data image_data : Volume) (wl : Option (ℚ × ℚ)) (mb : Bool)
    (i : ℕ) (sl : Frame2D)
    (h : volShape mask_data = volShape image_data)
    (hsl : (windowVolOpt wl image_data)[i]? = some sl) :
    imageFrameAt (save_kits19_frames mask_data image_data wl mb).1 i =
      some (sl.map (fun row => row.map (fun v =>
        castU8 ((v - frameMin sl) / (frameMax sl - frameMin sl) * 255)))) := by
  rw [imageFrameAt_save mask_data image_data wl mb i h, hsl]
  simp only [Option.map_some']
  rw [processSlice_eq_map]

theorem claim_C3_witness :
    volShape [[[(0 : ℚ), 0]]] = volShape [[[(1 : ℚ), 3]]] ∧
      (windowVolOpt none [[[(1 : ℚ), 3]]])[0]? = some [[(1 : ℚ), 3]] ∧
      imageFrameAt
          (save_kits19_frames [[[(0 : ℚ), 0]]] [[[(1 : ℚ), 3]]] none true).1 0 =
        some ([[(1 : ℚ), 3]].map (fun row => row.map (fun v =>
          castU8 ((v - frameMin [[(1 : ℚ), 3]]) /
            (frameMax [[(1 : ℚ), 3]] - frameMin [[(1 : ℚ), 3]]) * 255)))) :=
  ⟨by decide, by decide,
    claim_C3_per_slice_minmax_rescale _ _ none true 0 _ (by decide) (by decide)⟩

/-- Claim C4: every pixel value of every written image frame lies in
`[0, 255]` — the `astype(np.uint8)` cast lands in the 8-bit range. -/
theorem claim_C4_output_pixels_in_range
    (mask_data image_data : Volume) (wl : Option (ℚ × ℚ)) (mb : Bool)
    (i : ℕ) (f : List (List ℕ)) (row : List ℕ) (p : ℕ)
    (hf : Event.writeImage i f ∈ (save_kits19_frames mask_data image_data wl mb).1)
    (hrow : row ∈ f) (hp : p ∈ row) :
    0 ≤ p ∧ p ≤ 255 := by
  refine ⟨Nat.zero_le p, ?_⟩
  by_cases hsh : volShape mask_data = volShape image_data
  · rw [save_trace_ok mask_data image_data wl mb hsh] at hf
    simp only [List.cons_append, List.nil_append, List.append_eq,
      List.mem_cons] at hf
    rcases hf with hf | hf | hf | hf | hf
    · exact absurd hf (by simp)
    · exact absurd hf (by simp)
    · exact absurd hf (by simp)
    · exact absurd hf (by simp)
    · obtain ⟨pr, _, hfe⟩ := writeImage_mem_writeEvents _ 0 hf
      rw [hfe, processSlice_eq_map] at hrow
      obtain ⟨row0, _, hrow0⟩ := List.mem_map.mp hrow
      rw [← hrow0] at hp
      obtain ⟨v, _, hv⟩ := List.mem_map.mp hp
      rw [← hv]
      exact castU8_le_255 _
  · unfold save_kits19_frames at hf
    rw [if_neg hsh] at hf
    exact absurd hf (by simp)

theorem claim_C4_witness :
    Event.writeImage 0 [[0]] ∈
        (save_kits19_frames [[[(0 : ℚ)]]] [[[(0 : ℚ)]]] none true).1 ∧
      [(0 : ℕ)] ∈ [[(0 : ℕ)]] ∧ (0 : ℕ) ∈ [(0 : ℕ)] ∧
      (0 ≤ (0 : ℕ) ∧ (0 : ℕ) ≤ 255) := by
  have h0 : ((0 : ℚ) - 0) / (0 - 0) * 255 = 0 := by norm_num
  have hps : processSlice [[(0 : ℚ)]] = [[0]] := by
    simp [processSlice, frameMin, frameMax, h0, castU8, floatTrunc]
  have hmem : Event.writeImage 0 [[0]] ∈
      (save_kits19_frames [[[(0 : ℚ)]]] [[[(0 : ℚ)]]] none true).1 := by
    rw [save_trace_ok _ _ _ _ (by decide)]
    simp [writeEvents, windowVolOpt, binarizeVol, binarizeVal, hps]
  exact ⟨hmem, by decide, by decide,
    claim_C4_output_pixels_in_range _ _ none true 0 [[0]] [0] 0 hmem
      (by decide) (by decide)⟩

/-- Claim C5: with a window level `(low, high)` where `low ≤ high`, the two
masked assignments send every intensity `x` of the image volume to
`clamp(x, low, high)`: `x` if `low ≤ x ≤ high`, `low` if `x < low`, `high`
if `x > high`. -/
theorem claim_C5_window_is_clamp (low high : ℚ) (h : low ≤ high) (v : Volume) :
    windowVol low high v = v.map (fun sl => sl.map (fun row =>
      row.map (clampSpec low high))) := by
  unfold windowVol
  apply List.map_congr_left
  intro sl _
  apply List.map_congr_left
  intro row _
  apply List.map_congr_left
  intro x _
  exact applyWindowVal_eq_clamp low high x h

theorem claim_C5_witness :
    (0 : ℚ) ≤ 5 ∧
      windowVol 0 5 [[[(-3 : ℚ), 7, 2]]] =
        ([[[(-3 : ℚ), 7, 2]]] : Volume).map (fun sl => sl.map (fun row =>
          row.map (clampSpec 0 5))) :=
  ⟨by norm_num, claim_C5_window_is_clamp 0 5 (by norm_num) _⟩

/-- Claim C6: when a case converts (equal shapes), exactly one image frame
and one mask frame is written per slice index, with indices running from
`0` to `shape[0] - 1` of the volume's first axis. -/
theorem claim_C6_one_frame_per_slice
    (mask_data image_data : Volume) (wl : Option (ℚ × ℚ)) (mb : Bool)
    (h : volShape mask_data = volShape image_data) :
    imageWriteIndices (save_kits19_frames mask_data image_data wl mb).1 =
        List.range (volShape image_data).1 ∧
      maskWriteIndices (save_kits19_frames mask_data image_data wl mb).1 =
        List.range (volShape image_data).1 := by
  rw [save_trace_ok mask_data image_data wl mb h]
  have hlen : ((if mb then binarizeVol mask_data else mask_data).zip
      (windowVolOpt wl image_data)).length = image_data.length := by
    rw [List.length_zip, length_windowVolOpt]
    cases mb <;> simp [length_binarizeVol, volShape_fst h]
  constructor
  · simp only [imageWriteIndices, List.cons_append, List.nil_append,
      List.append_eq]
    rw [imageWriteIndices_writeEvents, hlen, ← List.range_eq_range']
    rfl
  · simp only [maskWriteIndices, List.cons_append, List.nil_append,
      List.append_eq]
    rw [maskWriteIndices_writeEvents, hlen, ← List.range_eq_range']
    rfl

theorem claim_C6_witness :
    volShape [[[(0 : ℚ)]], [[(1 : ℚ)]]] = volShape [[[(2 : ℚ)]], [[(3 : ℚ)]]] ∧
      (imageWriteIndices
          (save_kits19_frames [[[(0 : ℚ)]], [[(1 : ℚ)]]]
            [[[(2 : ℚ)]], [[(3 : ℚ)]]] none true).1 =
          List.range (volShape [[[(2 : ℚ)]], [[(3 : ℚ)]]]).1 ∧
        maskWriteIndices
          (save_kits19_frames [[[(0 : ℚ)]], [[(1 : ℚ)]]]
            [[[(2 : ℚ)]], [[(3 : ℚ)]]] none true).1 =
          List.range (volShape [[[(2 : ℚ)]], [[(3 : ℚ)]]]).1) :=
  ⟨by decide, claim_C6_one_frame_per_slice _ _ none true (by decide)⟩

/-- Claim C7: an image slice whose pixel values are all equal makes the
min-max rescale divide by zero: the denominator `max - min` is `0`, and the
written frame is still the unguarded elementwise
`castU8 ((v - min) / (max - min) * 255)` with that zero denominator — no
check or special case exists in the source. -/
theorem claim_C7_constant_slice_divzero (sl : Frame2D) (c : ℚ)
    (hne : sl.flatten ≠ []) (hc : ∀ v ∈ sl.flatten, v = c) :
    frameMax sl - frameMin sl = 0 ∧
      processSlice sl = sl.map (fun row => row.map (fun v =>
        castU8 ((v - frameMin sl) / 0 * 255))) := by
  have hmin := frameMin_const sl c hne hc
  have hmax := frameMax_const sl c hne hc
  have hz : frameMax sl - frameMin sl = 0 := by rw [hmin, hmax, sub_self]
  refine ⟨hz, ?_⟩
  rw [processSlice_eq_map, hz]

theorem claim_C7_witness :
    ([[5, 5], [(5 : ℚ), 5]] : Frame2D).flatten ≠ [] ∧
      (∀ v ∈ ([[5, 5], [(5 : ℚ), 5]] : Frame2D).flatten, v = 5) ∧
      (frameMax [[5, 5], [(5 : ℚ), 5]] - frameMin [[5, 5], [(5 : ℚ), 5]] = 0 ∧
        processSlice [[5, 5], [(5 : ℚ), 5]] =
          ([[5, 5], [(5 : ℚ), 5]] : Frame2D).map (fun row => row.map (fun v =>
            castU8 ((v - frameMin [[5, 5], [(5 : ℚ), 5]]) / 0 * 255)))) :=
  ⟨by decide, by decide,
    claim_C7_constant_slice_divzero _ 5 (by decide) (by decide)⟩

/-- Claim C8: slice extraction keeps no cross-slice state — the frames
written for index `i` depend only on slice `i` of the image volume and
slice `i` of the mask volume.  Two runs whose inputs agree at slice `i`
(but may differ at every other slice) write identical image and mask frames
for `i`. -/
theorem claim_C8_slice_independence
    (maskA imageA maskB imageB : Volume) (wl : Option (ℚ × ℚ)) (mb : Bool)
    (i : ℕ)
    (hA : volShape maskA = volShape imageA)
    (hB : volShape maskB = volShape imageB)
    (himg : imageA[i]? = imageB[i]?)
    (hmask : maskA[i]? = maskB[i]?) :
    imageFrameAt (save_kits19_frames maskA imageA wl mb).1 i =
        imageFrameAt (save_kits19_frames maskB imageB wl mb).1 i ∧
      maskFrameAt (save_kits19_frames maskA imageA wl mb).1 i =
        maskFrameAt (save_kits19_frames maskB imageB wl mb).1 i := by
  constructor
  · rw [imageFrameAt_save _ _ _ _ _ hA, imageFrameAt_save _ _ _ _ _ hB,
      windowVolOpt_getElem?, windowVolOpt_getElem?, himg]
  · rw [maskFrameAt_save _ _ _ _ _ hA, maskFrameAt_save _ _ _ _ _ hB]
    cases mb with
    | false => simpa using hmask
    | true =>
      simp only [if_true]
      rw [binarizeVol_getElem?, binarizeVol_getElem?, hmask]

theorem claim_C8_witness :
    volShape [[[(0 : ℚ)]], [[(1 : ℚ)]]] = volShape [[[(2 : ℚ)]], [[(3 : ℚ)]]] ∧
      volShape [[[(0 : ℚ)]], [[(7 : ℚ)]]] = volShape [[[(2 : ℚ)]], [[(9 : ℚ)]]] ∧
      ([[[(2 : ℚ)]], [[(3 : ℚ)]]] : Volume)[0]? =
        ([[[(2 : ℚ)]], [[(9 : ℚ)]]] : Volume)[0]? ∧
      ([[[(0 : ℚ)]], [[(1 : ℚ)]]] : Volume)[0]? =
        ([[[(0 : ℚ)]], [[(7 : ℚ)]]] : Volume)[0]? ∧
      (imageFrameAt (save_kits19_frames [[[(0 : ℚ)]], [[(1 : ℚ)]]]
            [[[(2 : ℚ)]], [[(3 : ℚ)]]] none true).1 0 =
          imageFrameAt (save_kits19_frames [[[(0 : ℚ)]], [[(7 : ℚ)]]]
            [[[(2 : ℚ)]], [[(9 : ℚ)]]] none true).1 0 ∧
        maskFrameAt (save_kits19_frames [[[(0 : ℚ)]], [[(1 : ℚ)]]]
            [[[(2 : ℚ)]], [[(3 : ℚ)]]] none true).1 0 =
          maskFrameAt (save_kits19_frames [[[(0 : ℚ)]], [[(7 : ℚ)]]]
            [[[(2 : ℚ)]], [[(9 : ℚ)]]] none true).1 0) :=
  ⟨by decide, by decide, by decide, by decide,
    claim_C8_slice_independence _ _ _ _ none true 0
      (by decide) (by decide) (by decide) (by decide)⟩

/-- Claim C9: windowing and min-max rescaling touch only the image volume.
The mask frame written for slice `i` is exactly slice `i` of the mask
volume after the optional binarization — not clipped to the window, not
rescaled, not cast. -/
theorem claim_C9_mask_written_raw
    (mask_data image_data : Volume) (wl : Option (ℚ × ℚ)) (mb : Bool) (i : ℕ)
    (h : volShape mask_data = volShape image_data) :
    maskFrameAt (save_kits19_frames mask_data image_data wl mb).1 i =
      (if mb then binarizeVol mask_data else mask_data)[i]? :=
  maskFrameAt_save mask_data image_data wl mb i h

theorem claim_C9_witness :
    volShape [[[(0 : ℚ), 2]]] = volShape [[[(-500 : ℚ), 900]]] ∧
      maskFrameAt (save_kits19_frames [[[(0 : ℚ), 2]]]
          [[[(-500 : ℚ), 900]]] (some (-125, 225)) true).1 0 =
        (if true then binarizeVol [[[(0 : ℚ), 2]]] else [[[(0 : ℚ), 2]]])[0]? :=
  ⟨by decide,
    claim_C9_mask_written_raw _ _ (some (-125, 225)) true 0 (by decide)⟩

end Kits19

namespace MT215

/-- Claim C10: `translate` on an input that is empty or all whitespace
strips it to the empty string, fails the assertion `len(sentence) > 0`
(an `AssertionError`), and does so before any tokenization or inference:
the event trace is empty. -/
theorem claim_C10_translate_whitespace_assert
    (tok : List Char → List ℕ) (bos eos pad maxTokens : ℕ) (s : List Char)
    (h : ∀ c ∈ s, pyIsSpace c) :
    translate tok bos eos pad maxTokens s =
      ([], Except.error "AssertionError") := by
  simp [translate, pyStrip_all_space h]

theorem claim_C10_witness :
    (∀ c ∈ [' ', '\t', '\n'], pyIsSpace c) ∧
      translate (fun _ => []) 0 0 0 0 [' ', '\t', '\n'] =
        ([], Except.error "AssertionError") :=
  ⟨by decide,
    claim_C10_translate_whitespace_assert (fun _ => []) 0 0 0 0 _ (by decide)⟩

end MT215
